import Mathlib

/-!
Verification development for the composite-hkxtools conversion orchestration
engine (src/src/main.rs).  The Rust code is shallowly embedded: filesystem
paths become a structure of an absoluteness flag plus a normalized component
list (matching Rust `std::path::Path` component semantics on absolute roots,
`join`, `parent`, `strip_prefix`, `starts_with`, `file_stem`, `extension`);
the effectful conversion task becomes a pure function from an oracle `World`
(process exit results, filesystem answers, the fresh temporary directory)
to a result plus a trace of external events (process spawns, file copies,
renames, temporary-directory creation and removal).
-/

/-- Model of a filesystem path: `absolute` mirrors a leading root component,
`components` the normal components in order (Rust `Path` normalizes `//` and
`/./`, so constructed paths carry normalized components directly). -/
structure FsPath where
  absolute : Bool
  components : List String
  deriving DecidableEq, Repr

namespace FsPath

/-- Rust `Path::join`: if the argument is absolute it replaces the whole
path, otherwise components are appended. -/
def join (p q : FsPath) : FsPath :=
  if q.absolute then q else ⟨p.absolute, p.components ++ q.components⟩

/-- Rust `Path::parent`: drops the last component; `None` for a root or
empty path. -/
def parent (p : FsPath) : Option FsPath :=
  match p.components with
  | [] => none
  | _ :: _ => some ⟨p.absolute, p.components.dropLast⟩

/-- Rust `Path::file_name`: the last component, if any. -/
def fileName (p : FsPath) : Option String :=
  p.components.getLast?

/-- Rust `Path::starts_with`: component-wise prefix test (the root component
must agree). -/
def startsWith (p base : FsPath) : Bool :=
  p.absolute = base.absolute && base.components.isPrefixOf p.components

/-- Rust `Path::strip_prefix`: strips a component-wise prefix, yielding a
relative remainder; errors (here `none`) when `base` is not a prefix. -/
def stripPrefix (p base : FsPath) : Option FsPath :=
  if p.absolute = base.absolute && base.components.isPrefixOf p.components then
    some ⟨false, p.components.drop base.components.length⟩
  else
    none

/-- A single relative component. -/
def rel1 (s : String) : FsPath := ⟨false, [s]⟩

end FsPath

/-- Split a character list at its last dot: returns the pieces before and
after that dot.  `none` when no dot occurs. -/
def splitAtLastDot : List Char → Option (List Char × List Char)
  | [] => none
  | c :: rest =>
    match splitAtLastDot rest with
    | some (b, a) => some (c :: b, a)
    | none => if c = '.' then some ([], rest) else none

/-- Rust `Path::file_stem` on a file name: the portion before the final dot,
except that a name whose only dot is leading is entirely the stem. -/
def fileStemStr (s : String) : String :=
  match splitAtLastDot s.data with
  | some (b, _) => if b = [] then s else ⟨b⟩
  | none => s

/-- Rust `Path::extension` on a file name: the portion after the final dot,
`none` when there is no dot or the only dot is leading. -/
def extensionStr (s : String) : Option String :=
  match splitAtLastDot s.data with
  | some (b, a) => if b = [] then none else some ⟨a⟩
  | none => none

namespace FsPath

/-- Rust `Path::file_stem`. -/
def fileStem (p : FsPath) : Option String :=
  p.fileName.map fileStemStr

/-- Rust `Path::extension`. -/
def extension (p : FsPath) : Option String :=
  p.fileName.bind extensionStr

end FsPath

/-- `enum ConverterTool` (main.rs lines 21-28). -/
inductive ConverterTool where
  | HkxCmd
  | Hct
  | HavokBehaviorPostProcess
  | HkxC
  | HkxConv
  deriving DecidableEq, Repr

/-- `enum OutputFormat` (main.rs lines 213-219). -/
inductive OutputFormat where
  | Xml
  | SkyrimLE
  | SkyrimSE
  | Kf
  deriving DecidableEq, Repr

namespace OutputFormat

/-- `OutputFormat::extension` (main.rs lines 222-228). -/
def extension : OutputFormat → String
  | Xml => "xml"
  | SkyrimLE => "hkx"
  | SkyrimSE => "hkx"
  | Kf => "kf"

/-- `OutputFormat::requires_skeleton` (main.rs lines 240-242). -/
def requires_skeleton : OutputFormat → Bool
  | Kf => true
  | _ => false

end OutputFormat

namespace ConverterTool

/-- `ConverterTool::supports_extension` (main.rs lines 53-65). -/
def supports_extension (t : ConverterTool) (ext : String) : Bool :=
  match t with
  | HkxCmd => ext = "hkx" || ext = "xml" || ext = "kf"
  | HkxC => ext = "hkx" || ext = "xml"
  | HkxConv => ext = "hkx" || ext = "xml"
  | Hct => ext = "hkx"
  | HavokBehaviorPostProcess => ext = "hkx"

/-- `ConverterTool::supports_file` (main.rs lines 68-73). -/
def supports_file (t : ConverterTool) (p : FsPath) : Bool :=
  match p.extension with
  | some ext => t.supports_extension ext
  | none => false

/-- `ConverterTool::available_output_formats` (main.rs lines 103-133). -/
def available_output_formats : ConverterTool → List OutputFormat
  | HkxCmd => [OutputFormat.Xml, OutputFormat.SkyrimLE, OutputFormat.SkyrimSE, OutputFormat.Kf]
  | HkxC => [OutputFormat.Xml, OutputFormat.SkyrimLE, OutputFormat.SkyrimSE]
  | HkxConv => [OutputFormat.Xml, OutputFormat.SkyrimSE]
  | Hct => [OutputFormat.SkyrimLE]
  | HavokBehaviorPostProcess => [OutputFormat.SkyrimSE]

end ConverterTool

/-- Output file name `stem.ext` or `stem_suffix.ext` (main.rs lines
1379-1383 and 1035-1039). -/
def outputFileName (file_name suffix ext : String) : String :=
  if suffix = "" then file_name ++ "." ++ ext
  else file_name ++ "_" ++ suffix ++ "." ++ ext

/-- `HkxToolsApp::get_output_path_static` (main.rs lines 1349-1386): the
output-path resolver used by the batch conversion pipeline
(`run_conversion_async`). -/
def get_output_path_static (input_path output_folder : FsPath)
    (output_suffix : String) (output_format : OutputFormat)
    (custom_extension : Option String) (base_folder : Option FsPath) :
    Option FsPath :=
  match input_path.fileStem with
  | none => none
  | some file_name =>
    let ext := custom_extension.getD output_format.extension
    let par := input_path.parent.getD ⟨false, []⟩
    let relative_path :=
      match base_folder with
      | some bf =>
        match par.stripPrefix bf with
        | some rel => rel
        | none => par
      | none => FsPath.mk false []
    let output_name := outputFileName file_name output_suffix ext
    some ((output_folder.join relative_path).join (FsPath.rel1 output_name))

/-- Fuel-driven rendering of the `while !dir.starts_with(common)
{ common = common.parent()? }` loop inside `find_common_parent_dir`
(main.rs lines 1064-1068); fuel exceeds the component count, so it is
never exhausted before `parent` returns `none`. -/
def climbToPrefix : Nat → FsPath → FsPath → Option FsPath
  | 0, _, _ => none
  | Nat.succ n, dir, common =>
    if dir.startsWith common then some common
    else
      match common.parent with
      | none => none
      | some c => climbToPrefix n dir c

/-- Fold of the common-prefix loop over the remaining parent directories
(main.rs lines 1064-1068). -/
def commonPrefixFold : List FsPath → FsPath → Option FsPath
  | [], common => some common
  | d :: ds, common =>
    match climbToPrefix (common.components.length + 1) d common with
    | none => none
    | some c => commonPrefixFold ds c

/-- `HkxToolsApp::find_common_parent_dir` (main.rs lines 1044-1071). -/
def find_common_parent_dir (input_paths : List FsPath) : Option FsPath :=
  match input_paths.filterMap FsPath.parent with
  | [] => none
  | first :: rest => commonPrefixFold rest first

/-- `HkxToolsApp::get_output_path` (main.rs lines 998-1042): the instance
resolver, defined on the app state but not called by the conversion
pipeline. -/
def get_output_path (input_paths : List FsPath) (output_folder : Option FsPath)
    (base_folder : Option FsPath) (output_suffix : String)
    (output_format : OutputFormat) (custom_extension : Option String)
    (input_path : FsPath) : Option FsPath :=
  match output_folder with
  | none => none
  | some output_base =>
    match input_path.fileStem with
    | none => none
    | some file_name =>
      let ext := custom_extension.getD output_format.extension
      let par := input_path.parent.getD ⟨false, []⟩
      let relative_path :=
        match base_folder with
        | some bf =>
          match par.stripPrefix bf with
          | some rel => rel
          | none => par
        | none =>
          let base_dir :=
            if input_paths.length = 1 then par
            else (find_common_parent_dir input_paths).getD ⟨false, []⟩
          (par.stripPrefix base_dir).getD ⟨false, []⟩
      let output_name := outputFileName file_name output_suffix ext
      some ((output_base.join relative_path).join (FsPath.rel1 output_name))

/-- Exit status and captured streams of one external process invocation. -/
structure ProcResult where
  success : Bool
  stdout : String
  stderr : String
  deriving DecidableEq, Repr

/-- Error taxonomy of the conversion task; each constructor corresponds to a
distinct `return Err(...)` site in main.rs. -/
inductive ConvErr where
  | unsupportedConversion (msg : String)
  | inputNotHkx
  | samePath
  | ioFailure (msg : String)
  | toolExecutionFailed (stdoutText : Option String) (stderrText : String)
  | missingFixedOutput
  | outputMissing
  deriving DecidableEq, Repr

/-- One command-line argument: a literal string or a path. -/
inductive Arg where
  | str (s : String)
  | path (p : FsPath)
  deriving DecidableEq, Repr

/-- Externally visible events the task performs, in order. -/
inductive Event where
  | spawn (prog : ConverterTool) (args : List Arg) (cwd : Option FsPath)
  | copyFile (src dst : FsPath)
  | createDirAll (p : FsPath)
  | removeFile (p : FsPath)
  | renameFile (src dst : FsPath)
  | createTempDir (p : FsPath)
  | removeTempDir (p : FsPath)
  deriving DecidableEq, Repr

/-- The per-job configuration captured in `TempConversionContext`
(main.rs lines 274-285); executable paths are identified by the tool. -/
structure ToolCtx where
  converter_tool : ConverterTool
  output_format : OutputFormat
  skeleton_file : Option FsPath
  sse_to_le_hko_path : FsPath
  deriving DecidableEq, Repr

/-- Oracle for everything the environment decides during one job: the
process working directory, the fresh temporary directory, each fallible
filesystem operation's outcome, and each spawned process's result. -/
structure World where
  cwd : FsPath
  tempDir : FsPath
  tempDirOk : Bool
  copyHkoOk : Bool
  hctSpawnOk : Bool
  hctExit : ProcResult
  hctFixedOutputExists : Bool
  hctMkdirOk : Bool
  finalPreexists : Bool
  removePreexistingOk : Bool
  renameOk : Bool
  copyFallbackOk : Bool
  removeTempOutOk : Bool
  hbppMkdirOk : Bool
  hbppCopyOk : Bool
  hbppMetaBeforeOk : Bool
  mainSpawnOk : Bool
  mainExit : ProcResult
  hbppMetaAfterOk : Bool
  hbppMetaInOk : Bool
  finalOutputExists : Bool
  deriving DecidableEq, Repr

/-- `HkxToolsApp::ensure_absolute_path` (main.rs lines 630-636). -/
def ensure_absolute_path (cwd p : FsPath) : FsPath :=
  if p.absolute then p else cwd.join p

/-- hkxcmd `-v:` argument by format (main.rs lines 348-353 and 360-365). -/
def hkxcmdVersionArg : OutputFormat → String
  | OutputFormat.Xml => "XML"
  | OutputFormat.SkyrimLE => "WIN32"
  | OutputFormat.SkyrimSE => "AMD64"
  | OutputFormat.Kf => "AMD64"

/-- hkxc `--format` argument by format (main.rs lines 374-379). -/
def hkxcFormatArg : OutputFormat → String
  | OutputFormat.Xml => "xml"
  | OutputFormat.SkyrimLE => "win32"
  | OutputFormat.SkyrimSE => "amd64"
  | OutputFormat.Kf => "amd64"

/-- hkxconv `-v` argument by format (main.rs lines 387-392). -/
def hkxconvFormatArg : OutputFormat → String
  | OutputFormat.Xml => "xml"
  | OutputFormat.SkyrimLE => "hkx"
  | OutputFormat.SkyrimSE => "hkx"
  | OutputFormat.Kf => "hkx"

/-- Rename-or-copy fallback tail of the HCT branch (main.rs lines 462-482):
move the fixed-name output into place, fall back to copy plus delete, and in
every case the temporary directory is dropped at scope exit. -/
def run_hct_rename (w : World) (src dst : FsPath) (ev : List Event) :
    Except ConvErr Unit × List Event :=
  if w.renameOk then
    (Except.ok (), ev ++ [Event.renameFile src dst, Event.removeTempDir w.tempDir])
  else
    let ev1 := ev ++ [Event.copyFile src dst]
    if w.copyFallbackOk = false then
      (Except.error (ConvErr.ioFailure "Failed to copy HCT output file to final location"),
       ev1 ++ [Event.removeTempDir w.tempDir])
    else
      let ev2 := ev1 ++ [Event.removeFile src]
      if w.removeTempOutOk = false then
        (Except.error (ConvErr.ioFailure "Failed to remove temporary HCT output file after copy"),
         ev2 ++ [Event.removeTempDir w.tempDir])
      else
        (Except.ok (), ev2 ++ [Event.removeTempDir w.tempDir])

/-- Pre-existing-target removal step of the HCT branch (main.rs lines
456-460). -/
def run_hct_replace (w : World) (src dst : FsPath) (ev : List Event) :
    Except ConvErr Unit × List Event :=
  if w.finalPreexists then
    let ev1 := ev ++ [Event.removeFile dst]
    if w.removePreexistingOk = false then
      (Except.error (ConvErr.ioFailure "Failed to remove existing target file"),
       ev1 ++ [Event.removeTempDir w.tempDir])
    else
      run_hct_rename w src dst ev1
  else
    run_hct_rename w src dst ev

/-- The HCT branch of `run_conversion_tool` (main.rs lines 394-483): runs in
a fresh job-exclusive temporary directory holding a private copy of the .hko
asset; the `tempfile::TempDir` guard removes the directory on every exit
path of the branch. -/
def run_hct (ctx : ToolCtx) (w : World) (input_absolute output_absolute : FsPath) :
    Except ConvErr Unit × List Event :=
  if w.tempDirOk = false then
    (Except.error (ConvErr.ioFailure "Failed to create temporary directory for HCT conversion"), [])
  else
    let ev0 := [Event.createTempDir w.tempDir]
    let hko_filename := ctx.sse_to_le_hko_path.fileName.getD ""
    let temp_hko_path := w.tempDir.join (FsPath.rel1 hko_filename)
    let ev1 := ev0 ++ [Event.copyFile ctx.sse_to_le_hko_path temp_hko_path]
    if w.copyHkoOk = false then
      (Except.error (ConvErr.ioFailure "Failed to copy .hko file to temporary directory"),
       ev1 ++ [Event.removeTempDir w.tempDir])
    else
      let args := [Arg.path input_absolute, Arg.str "-s", Arg.str hko_filename]
      let ev2 := ev1 ++ [Event.spawn ConverterTool.Hct args (some w.tempDir)]
      if w.hctSpawnOk = false then
        (Except.error (ConvErr.ioFailure "Failed to execute HCT converter tool"),
         ev2 ++ [Event.removeTempDir w.tempDir])
      else if w.hctExit.success = false then
        (Except.error (ConvErr.toolExecutionFailed none w.hctExit.stderr),
         ev2 ++ [Event.removeTempDir w.tempDir])
      else
        let hct_output_file := w.tempDir.join (FsPath.rel1 "filename.hkx")
        if w.hctFixedOutputExists = false then
          (Except.error ConvErr.missingFixedOutput, ev2 ++ [Event.removeTempDir w.tempDir])
        else
          match output_absolute.parent with
          | some par =>
            let ev3 := ev2 ++ [Event.createDirAll par]
            if w.hctMkdirOk = false then
              (Except.error (ConvErr.ioFailure "Failed to create output directory"),
               ev3 ++ [Event.removeTempDir w.tempDir])
            else
              run_hct_replace w hct_output_file output_absolute ev3
          | none =>
            run_hct_replace w hct_output_file output_absolute ev2

/-- Common spawn-and-check tail shared by the argument-driven tools and
HavokBehaviorPostProcess (main.rs lines 538-578). -/
def run_spawn_common (ctx : ToolCtx) (w : World) (args : List Arg) (ev : List Event) :
    Except ConvErr Unit × List Event :=
  let ev1 := ev ++ [Event.spawn ctx.converter_tool args none]
  if w.mainSpawnOk = false then
    (Except.error (ConvErr.ioFailure "Failed to execute converter tool"), ev1)
  else if w.mainExit.success = false then
    (Except.error (ConvErr.toolExecutionFailed (some w.mainExit.stdout) w.mainExit.stderr), ev1)
  else if ctx.converter_tool = ConverterTool.HavokBehaviorPostProcess then
    if w.hbppMetaAfterOk = false then
      (Except.error (ConvErr.ioFailure "Failed to get file metadata after processing"), ev1)
    else if w.hbppMetaInOk = false then
      (Except.error (ConvErr.ioFailure "Failed to get input file metadata"), ev1)
    else
      (Except.ok (), ev1)
  else
    (Except.ok (), ev1)

/-- Copy-then-invoke tail of the HavokBehaviorPostProcess branch
(main.rs lines 512-535): pre-copy the input to the output location, read its
metadata, then invoke the tool in-place on the output file. -/
def run_hbpp_copy (ctx : ToolCtx) (w : World) (input_absolute output_absolute : FsPath)
    (args0 : List Arg) (ev : List Event) : Except ConvErr Unit × List Event :=
  let ev1 := ev ++ [Event.copyFile input_absolute output_absolute]
  if w.hbppCopyOk = false then
    (Except.error (ConvErr.ioFailure "Failed to copy input file to output location"), ev1)
  else if w.hbppMetaBeforeOk = false then
    (Except.error (ConvErr.ioFailure "Failed to get file metadata before processing"), ev1)
  else
    let args := args0 ++ [Arg.str "--platformAmd64", Arg.path output_absolute, Arg.path output_absolute]
    run_spawn_common ctx w args ev1

/-- `TempConversionContext::run_conversion_tool` (main.rs lines 288-579),
rendered as a pure function from the oracle `World` to a result and the
ordered trace of external events. -/
def run_conversion_tool (ctx : ToolCtx) (w : World) (input output : FsPath) :
    Except ConvErr Unit × List Event :=
  let input_absolute := ensure_absolute_path w.cwd input
  let output_absolute := ensure_absolute_path w.cwd output
  let skeleton_absolute := ctx.skeleton_file.map (ensure_absolute_path w.cwd)
  let input_ext := input_absolute.extension.getD ""
  let args0 : List Arg :=
    if ctx.output_format = OutputFormat.Kf then
      if ctx.converter_tool ≠ ConverterTool.Hct then
        [Arg.str (if input_ext = "kf" then "ConvertKF" else "exportkf")]
      else []
    else
      if ctx.converter_tool ≠ ConverterTool.Hct ∧
          ctx.converter_tool ≠ ConverterTool.HavokBehaviorPostProcess then
        [Arg.str "convert"]
      else []
  match ctx.converter_tool with
  | ConverterTool.HkxCmd =>
    let args :=
      if ctx.output_format = OutputFormat.Kf then
        args0 ++ (match skeleton_absolute with
                  | some sk => [Arg.path sk]
                  | none => []) ++
          [Arg.path input_absolute, Arg.path output_absolute] ++
          (if input_ext = "kf" then
            [Arg.str ("-v:" ++ hkxcmdVersionArg ctx.output_format)]
          else [])
      else
        args0 ++ [Arg.str "-i", Arg.path input_absolute, Arg.str "-o",
          Arg.path output_absolute,
          Arg.str ("-v:" ++ hkxcmdVersionArg ctx.output_format)]
    run_spawn_common ctx w args []
  | ConverterTool.HkxC =>
    if ctx.output_format = OutputFormat.Kf then
      (Except.error (ConvErr.unsupportedConversion "hkxc does not support KF conversion"), [])
    else
      let args := args0 ++ [Arg.str "--input", Arg.path input_absolute,
        Arg.str "--output", Arg.path output_absolute,
        Arg.str "--format", Arg.str (hkxcFormatArg ctx.output_format)]
      run_spawn_common ctx w args []
  | ConverterTool.HkxConv =>
    if ctx.output_format = OutputFormat.Kf then
      (Except.error (ConvErr.unsupportedConversion "hkxconv does not support KF conversion"), [])
    else
      let args := args0 ++ [Arg.path input_absolute, Arg.path output_absolute,
        Arg.str "-v", Arg.str (hkxconvFormatArg ctx.output_format)]
      run_spawn_common ctx w args []
  | ConverterTool.Hct =>
    if ctx.output_format = OutputFormat.Kf then
      (Except.error (ConvErr.unsupportedConversion "HCT does not support KF conversion"), [])
    else
      run_hct ctx w input_absolute output_absolute
  | ConverterTool.HavokBehaviorPostProcess =>
    if ctx.output_format = OutputFormat.Kf then
      (Except.error (ConvErr.unsupportedConversion "HavokBehaviorPostProcess does not support KF conversion"), [])
    else if input_absolute.extension ≠ some "hkx" then
      (Except.error ConvErr.inputNotHkx, [])
    else if input_absolute = output_absolute then
      (Except.error ConvErr.samePath, [])
    else
      match output_absolute.parent with
      | some par =>
        let ev := [Event.createDirAll par]
        if w.hbppMkdirOk = false then
          (Except.error (ConvErr.ioFailure "Failed to create output directory"), ev)
        else
          run_hbpp_copy ctx w input_absolute output_absolute args0 ev
      | none =>
        run_hbpp_copy ctx w input_absolute output_absolute args0 []

/-- The per-job wrapper inside `run_conversion_async` (main.rs lines
1248-1283): after a successful tool run, the job still fails when no file
exists at the final output path. -/
def run_job (ctx : ToolCtx) (w : World) (input output : FsPath) : Except ConvErr Unit :=
  match (run_conversion_tool ctx w input output).1 with
  | Except.ok () =>
    if w.finalOutputExists then Except.ok () else Except.error ConvErr.outputMissing
  | Except.error e => Except.error e

/-- Outcome of `HkxToolsApp::start_conversion`'s validation prefix
(main.rs lines 1073-1104): either a single validation error recorded in the
conversion status, or the batch is handed to `run_conversion_async`. -/
inductive StartOutcome where
  | rejected (message : String)
  | started (jobs : List FsPath)
  deriving DecidableEq, Repr

/-- The jobs handed to the async conversion runner; a rejected batch hands
over none. -/
def StartOutcome.dispatchedJobs : StartOutcome → List FsPath
  | rejected _ => []
  | started js => js

/-- `HkxToolsApp::start_conversion` validation (main.rs lines 1073-1104):
each failed check sets one error status and returns before any channel is
created or any task spawned. -/
def start_conversion (input_paths : List FsPath) (output_folder : Option FsPath)
    (output_format : OutputFormat) (skeleton_file : Option FsPath) : StartOutcome :=
  if input_paths = [] then
    StartOutcome.rejected "No input files selected"
  else if output_folder = none then
    StartOutcome.rejected "No output folder selected"
  else if output_format.requires_skeleton = true ∧ skeleton_file = none then
    StartOutcome.rejected "Skeleton file is required for KF conversion"
  else
    StartOutcome.started input_paths

/-- Batch-level configuration cloned into `run_conversion_async`
(main.rs lines 1106-1121). -/
structure OrchCfg where
  output_folder : FsPath
  output_suffix : String
  output_format : OutputFormat
  custom_extension : Option String
  base_folder : Option FsPath
  deriving DecidableEq, Repr

/-- Orchestrator-level oracle: `cancelAt` is the index (in call order) of
the `cancel_rx.try_recv()` call that observes the oneshot cancellation
send, if any — a oneshot channel yields the value to at most one receive;
`mkdirFailAt` is the loop index whose `create_dir_all` fails, if any;
`jobOutcomes` records whether each dispatched task resolved successfully. -/
structure OrchWorld where
  cancelAt : Option Nat
  mkdirFailAt : Option Nat
  jobOutcomes : List Bool
  deriving DecidableEq, Repr

/-- Progress events emitted by the orchestrator body itself (per-task
running/failure events are emitted inside the spawned tasks and are not part
of this trace). `cancelledEvent true` is the dispatch-loop cancellation
message (main.rs lines 1181-1190), `cancelledEvent false` the result-loop
one (lines 1296-1306); the summaries carry the counts formatted into the
final message (lines 1325-1343). -/
inductive OrchEvent where
  | cancelledEvent (duringDispatch : Bool)
  | summaryError (succeeded failed total : Nat)
  | summaryCompleted (succeeded total : Nat)
  deriving DecidableEq, Repr

/-- How the dispatch loop ended. -/
inductive Phase1End where
  | ran
  | cancelled
  | ioAbort
  deriving DecidableEq, Repr

/-- `run_conversion_async` result: the `abortedIo` outcome is a `?` failure
propagated out of the function (its `Result` is dropped by the caller). -/
inductive OrchOutcome where
  | abortedIo
  | finished
  deriving DecidableEq, Repr

structure OrchResult where
  dispatched : List FsPath
  events : List OrchEvent
  outcome : OrchOutcome
  deriving DecidableEq, Repr

/-- The dispatch loop of `run_conversion_async` (main.rs lines 1179-1287):
per input, one cancellation check, then output-path computation and
directory creation (either failure aborts the whole run), then the task is
dispatched.  Returns the dispatched inputs in order and how the loop
ended. -/
def orch_dispatch (cfg : OrchCfg) (w : OrchWorld) :
    List FsPath → Nat → List FsPath × Phase1End
  | [], _ => ([], Phase1End.ran)
  | p :: ps, i =>
    if w.cancelAt = some i then ([], Phase1End.cancelled)
    else
      match get_output_path_static p cfg.output_folder cfg.output_suffix
          cfg.output_format cfg.custom_extension cfg.base_folder with
      | none => ([], Phase1End.ioAbort)
      | some _ =>
        if w.mkdirFailAt = some i then ([], Phase1End.ioAbort)
        else
          let rest := orch_dispatch cfg w ps (i + 1)
          (p :: rest.1, rest.2)

/-- The result loop of `run_conversion_async` (main.rs lines 1295-1322):
per resolved task, one cancellation check (returning `none` suppresses the
summary), otherwise the outcome is tallied. -/
def orch_tally (w : OrchWorld) : List Bool → Nat → Nat → Nat → Option (Nat × Nat)
  | [], _, s, f => some (s, f)
  | r :: rs, c, s, f =>
    if w.cancelAt = some c then none
    else orch_tally w rs (c + 1) (if r then s + 1 else s) (if r then f else f + 1)

/-- `HkxToolsApp::run_conversion_async` (main.rs lines 1150-1346): dispatch
all jobs (cooperatively checking cancellation before each), await them all,
then either emit the cancellation event or exactly one summary. -/
def run_conversion_async (cfg : OrchCfg) (w : OrchWorld) (input_paths : List FsPath) :
    OrchResult :=
  let n := input_paths.length
  let d := orch_dispatch cfg w input_paths 0
  match d.2 with
  | Phase1End.cancelled =>
    { dispatched := d.1, events := [OrchEvent.cancelledEvent true],
      outcome := OrchOutcome.finished }
  | Phase1End.ioAbort =>
    { dispatched := d.1, events := [], outcome := OrchOutcome.abortedIo }
  | Phase1End.ran =>
    match orch_tally w (w.jobOutcomes.take d.1.length) n 0 0 with
    | none =>
      { dispatched := d.1, events := [OrchEvent.cancelledEvent false],
        outcome := OrchOutcome.finished }
    | some (s, f) =>
      if 0 < f then
        { dispatched := d.1, events := [OrchEvent.summaryError s f n],
          outcome := OrchOutcome.finished }
      else
        { dispatched := d.1, events := [OrchEvent.summaryCompleted s n],
          outcome := OrchOutcome.finished }

/-- `enum InputFileExtension` (main.rs lines 161-167). -/
inductive InputFileExtension where
  | All
  | Hkx
  | Xml
  | Kf
  deriving DecidableEq, Repr

/-- The slice of `HkxToolsApp` state the file-adding operations touch. -/
structure AppFiles where
  input_paths : List FsPath
  base_folder : Option FsPath
  input_file_extension : InputFileExtension
  converter_tool : ConverterTool
  deriving DecidableEq, Repr

/-- `HkxToolsApp::file_matches_filter` (main.rs lines 610-627); `fs` is the
set of paths that exist as regular files. -/
def file_matches_filter (fs : List FsPath) (st : AppFiles) (p : FsPath) : Bool :=
  if p ∈ fs then
    match st.input_file_extension with
    | InputFileExtension.All => st.converter_tool.supports_file p
    | InputFileExtension.Hkx => p.extension = some "hkx"
    | InputFileExtension.Xml => p.extension = some "xml"
    | InputFileExtension.Kf => p.extension = some "kf"
  else false

/-- `HkxToolsApp::add_file` (main.rs lines 834-842). -/
def add_file (fs : List FsPath) (st : AppFiles) (p : FsPath) : AppFiles × Bool :=
  if file_matches_filter fs st p = true ∧ p ∉ st.input_paths then
    ({ st with input_paths := st.input_paths ++ [p] }, true)
  else
    (st, false)

/-- The shared body of `add_files_non_recursive` (main.rs lines 801-812) and
`add_files_recursive` (lines 814-823): fold the directory listing `entries`
(the oracle for `read_dir` respectively `WalkDir`), pushing each path that
matches the filter and is not already present.  An entry error aborts the
loop early, leaving the pushes made so far, so the resulting list is this
fold over a prefix of the listing. -/
def add_entries (fs : List FsPath) (st : AppFiles) (entries : List FsPath) : AppFiles :=
  entries.foldl (fun s p =>
    if file_matches_filter fs s p = true ∧ p ∉ s.input_paths then
      { s with input_paths := s.input_paths ++ [p] }
    else s) st

/-- `HkxToolsApp::add_files_from_folder` (main.rs lines 790-799): records
the base folder, then adds the folder's listing (recursive or not — both
loops have the same membership guard). -/
def add_files_from_folder (fs : List FsPath) (st : AppFiles) (folder : FsPath)
    (entries : List FsPath) : AppFiles :=
  add_entries fs { st with base_folder := some folder } entries

/-- One dropped item (main.rs lines 849-875): a path that is a regular
file, a directory together with its (oracle) listing, or neither. -/
inductive DroppedItem where
  | fileItem (p : FsPath)
  | dirItem (p : FsPath) (entries : List FsPath)
  | otherItem (p : FsPath)
  deriving DecidableEq, Repr

/-- `HkxToolsApp::handle_dropped_files` (main.rs lines 844-886): files go
through `add_file`; a dropped directory sets the base folder and adds each
listing entry that is a regular file through `add_file`.  The added/skipped
counters and the output-folder refresh touch neither the input list nor the
base folder and are omitted. -/
def handle_dropped_files (fs : List FsPath) (st : AppFiles)
    (items : List DroppedItem) : AppFiles :=
  items.foldl (fun s item =>
    match item with
    | DroppedItem.fileItem p => (add_file fs s p).1
    | DroppedItem.dirItem d entries =>
      entries.foldl (fun s2 e => if e ∈ fs then (add_file fs s2 e).1 else s2)
        { s with base_folder := some d }
    | DroppedItem.otherItem _ => s) st

/-- An oracle environment in which every filesystem operation and every
spawned process succeeds; used to instantiate concrete runs. -/
def allOkWorld : World where
  cwd := ⟨true, ["cwd"]⟩
  tempDir := ⟨true, ["tmp", "hct1"]⟩
  tempDirOk := true
  copyHkoOk := true
  hctSpawnOk := true
  hctExit := ⟨true, "", ""⟩
  hctFixedOutputExists := true
  hctMkdirOk := true
  finalPreexists := false
  removePreexistingOk := true
  renameOk := true
  copyFallbackOk := true
  removeTempOutOk := true
  hbppMkdirOk := true
  hbppCopyOk := true
  hbppMetaBeforeOk := true
  mainSpawnOk := true
  mainExit := ⟨true, "", ""⟩
  hbppMetaAfterOk := true
  hbppMetaInOk := true
  finalOutputExists := true

/-- `allOkWorld`, except that no file exists at the final output path after
the run. -/
def missingOutputWorld : World :=
  { allOkWorld with finalOutputExists := false }

/-- The extracted `_SSEtoLE.hko` asset path used in concrete runs. -/
def sampleHko : FsPath := ⟨true, ["assets", "_SSEtoLE.hko"]⟩

/-- Concrete input path for witnesses. -/
def sampleIn : FsPath := ⟨true, ["in", "a.hkx"]⟩

/-- Concrete output path for witnesses. -/
def sampleOut : FsPath := ⟨true, ["out", "a.hkx"]⟩

/-- Concrete skeleton path for witnesses. -/
def sampleSkel : FsPath := ⟨true, ["sk", "skel.hkx"]⟩

theorem isPrefixOf_append_self (l t : List String) : l.isPrefixOf (l ++ t) = true := by
  induction l with
  | nil => simp [List.isPrefixOf]
  | cons a as ih => simp [List.isPrefixOf, ih]

theorem FsPath.stripPrefix_self (p : FsPath) : p.stripPrefix p = some ⟨false, []⟩ := by
  have h := isPrefixOf_append_self p.components []
  rw [List.append_nil] at h
  simp [FsPath.stripPrefix, h]

theorem startsWith_join_rel (root q r : FsPath) (hq : q.absolute = false)
    (hr : r.absolute = false) : ((root.join q).join r).startsWith root = true := by
  simp [FsPath.join, hq, hr, FsPath.startsWith, List.append_assoc, isPrefixOf_append_self]

/-- C1 counterexample: input `/a/b/c.hkx`, output root `/out`, base folder
`/x` (set but not an ancestor of the input's parent).  The resolver does not
clamp: it falls back to the input's full parent directory `/a/b`, which
being absolute replaces the output root on join, so the resolved path
`/a/b/c.xml` lies outside `/out`. -/
theorem c1_escape_counterexample :
    get_output_path_static ⟨true, ["a", "b", "c.hkx"]⟩ ⟨true, ["out"]⟩ ""
      OutputFormat.Xml none (some ⟨true, ["x"]⟩) =
      some ⟨true, ["a", "b", "c.xml"]⟩ ∧
    FsPath.startsWith ⟨true, ["a", "b", "c.xml"]⟩ ⟨true, ["out"]⟩ = false := by
  constructor
  · rfl
  · rfl

/-- C1 (amended): when no base folder is set, or the base folder is a true
ancestor of the input's parent, `get_output_path_static` stays under the
output root; but when the base folder is set and is not an ancestor, the
resolver does not clamp to no subdirectory — it falls back to the input's
full parent directory, and joining an absolute parent replaces the output
root, so the resolved path is `parent/filename`, which can lie outside the
output root. -/
theorem c1_resolver_escape_behavior (input root : FsPath) (suffix : String)
    (fmt : OutputFormat) (ce : Option String) (stem : String)
    (hstem : input.fileStem = some stem) :
    (∀ out, get_output_path_static input root suffix fmt ce none = some out →
      out.startsWith root = true) ∧
    (∀ bf rel out, (input.parent.getD ⟨false, []⟩).stripPrefix bf = some rel →
      get_output_path_static input root suffix fmt ce (some bf) = some out →
      out.startsWith root = true) ∧
    (∀ bf, (input.parent.getD ⟨false, []⟩).stripPrefix bf = none →
      (input.parent.getD ⟨false, []⟩).absolute = true →
      get_output_path_static input root suffix fmt ce (some bf) =
        some ((input.parent.getD ⟨false, []⟩).join
          (FsPath.rel1 (outputFileName stem suffix (ce.getD fmt.extension))))) := by
  refine ⟨?_, ?_, ?_⟩
  · intro out hout
    simp only [get_output_path_static, hstem] at hout
    obtain rfl := Option.some.inj hout
    exact startsWith_join_rel root ⟨false, []⟩ _ rfl rfl
  · intro bf rel out hrel hout
    simp only [get_output_path_static, hstem, hrel] at hout
    obtain rfl := Option.some.inj hout
    have hrelabs : rel.absolute = false := by
      simp only [FsPath.stripPrefix] at hrel
      split_ifs at hrel
      · obtain rfl := Option.some.inj hrel
        rfl
    exact startsWith_join_rel root rel _ hrelabs rfl
  · intro bf hfail habs
    simp only [get_output_path_static, hstem, hfail]
    simp [FsPath.join, habs]

/-- Closed witness instantiating `c1_resolver_escape_behavior` on the
counterexample input. -/
theorem c1_resolver_escape_behavior_witness :
    get_output_path_static ⟨true, ["a", "b", "c.hkx"]⟩ ⟨true, ["out"]⟩ ""
      OutputFormat.Xml none (some ⟨true, ["x"]⟩) =
      some ((FsPath.mk true ["a", "b"]).join
        (FsPath.rel1 (outputFileName "c" "" "xml"))) := by
  have h := (c1_resolver_escape_behavior ⟨true, ["a", "b", "c.hkx"]⟩ ⟨true, ["out"]⟩ ""
    OutputFormat.Xml none "c" rfl).2.2 ⟨true, ["x"]⟩ rfl rfl
  exact h

/-- C2 counterexample: batch `/r/d1/a.hkx`, `/r/d2/b.hkx` with no base
folder, output root `/out`.  The common ancestor is `/r` and relativizing
`a.hkx`'s parent against it gives `d1`, so the claimed resolution is
`/out/d1/a.xml` — which is what the unused instance method computes — but
`get_output_path_static`, the resolver the batch pipeline actually calls,
yields `/out/a.xml` with no subdirectory. -/
theorem c2_multi_file_counterexample :
    find_common_parent_dir
      [⟨true, ["r", "d1", "a.hkx"]⟩, ⟨true, ["r", "d2", "b.hkx"]⟩] =
      some ⟨true, ["r"]⟩ ∧
    get_output_path_static ⟨true, ["r", "d1", "a.hkx"]⟩ ⟨true, ["out"]⟩ ""
      OutputFormat.Xml none none = some ⟨true, ["out", "a.xml"]⟩ ∧
    get_output_path [⟨true, ["r", "d1", "a.hkx"]⟩, ⟨true, ["r", "d2", "b.hkx"]⟩]
      (some ⟨true, ["out"]⟩) none "" OutputFormat.Xml none
      ⟨true, ["r", "d1", "a.hkx"]⟩ = some ⟨true, ["out", "d1", "a.xml"]⟩ ∧
    (FsPath.mk true ["out", "a.xml"]) ≠ (FsPath.mk true ["out", "d1", "a.xml"]) := by
  refine ⟨rfl, rfl, rfl, by decide⟩

/-- C2 (amended): with no base folder set, the resolver used by the batch
pipeline (`get_output_path_static`) places every file directly under the
output root with no subdirectory, whether the batch has one file or many;
the common-ancestor relativization (a) and the single-file rule (b) are
implemented only by the instance method `get_output_path`, which the
conversion pipeline does not call. -/
theorem c2_no_base_folder_resolution :
    (∀ (input root : FsPath) (suffix : String) (fmt : OutputFormat)
        (ce : Option String) (stem : String), input.fileStem = some stem →
      get_output_path_static input root suffix fmt ce none =
        some (root.join (FsPath.rel1 (outputFileName stem suffix (ce.getD fmt.extension))))) ∧
    (∀ (inputs : List FsPath) (input root c rel : FsPath) (suffix : String)
        (fmt : OutputFormat) (ce : Option String) (stem : String),
      inputs.length ≠ 1 →
      find_common_parent_dir inputs = some c →
      (input.parent.getD ⟨false, []⟩).stripPrefix c = some rel →
      input.fileStem = some stem →
      get_output_path inputs (some root) none suffix fmt ce input =
        some ((root.join rel).join
          (FsPath.rel1 (outputFileName stem suffix (ce.getD fmt.extension))))) ∧
    (∀ (inputs : List FsPath) (input root : FsPath) (suffix : String)
        (fmt : OutputFormat) (ce : Option String) (stem : String),
      inputs.length = 1 →
      input.fileStem = some stem →
      get_output_path inputs (some root) none suffix fmt ce input =
        some (root.join (FsPath.rel1 (outputFileName stem suffix (ce.getD fmt.extension))))) := by
  refine ⟨?_, ?_, ?_⟩
  · intro input root suffix fmt ce stem hstem
    simp only [get_output_path_static, hstem]
    simp [FsPath.join, FsPath.rel1]
  · intro inputs input root c rel suffix fmt ce stem hlen hc hrel hstem
    simp only [get_output_path, hstem, if_neg hlen, hc, Option.getD_some, hrel]
  · intro inputs input root suffix fmt ce stem hlen hstem
    simp only [get_output_path, hstem, if_pos hlen, FsPath.stripPrefix_self,
      Option.getD_some]
    simp [FsPath.join, FsPath.rel1]

/-- Closed witness instantiating `c2_no_base_folder_resolution` on a
single concrete input. -/
theorem c2_no_base_folder_resolution_witness :
    get_output_path_static ⟨true, ["r", "d1", "a.hkx"]⟩ ⟨true, ["out"]⟩ ""
      OutputFormat.Xml none none =
      some ((FsPath.mk true ["out"]).join (FsPath.rel1 (outputFileName "a" "" "xml"))) :=
  (c2_no_base_folder_resolution).1 ⟨true, ["r", "d1", "a.hkx"]⟩ ⟨true, ["out"]⟩ ""
    OutputFormat.Xml none "a" rfl

/-- C3 counterexample: Skyrim LE is not in hkxconv's producible set
(`available_output_formats`), yet the conversion task does not reject the
job — it spawns hkxconv with `-v hkx` and reports success. -/
theorem c3_out_of_set_spawn_counterexample :
    OutputFormat.SkyrimLE ∉
      ConverterTool.available_output_formats ConverterTool.HkxConv ∧
    run_conversion_tool
      ⟨ConverterTool.HkxConv, OutputFormat.SkyrimLE, none, sampleHko⟩
      allOkWorld sampleIn sampleOut =
      (Except.ok (),
       [Event.spawn ConverterTool.HkxConv
         [Arg.str "convert", Arg.path sampleIn, Arg.path sampleOut,
          Arg.str "-v", Arg.str "hkx"] none]) := by
  exact ⟨by decide, rfl⟩

/-- C3 (amended): the task enforces only the keyframe mismatch.  A job
whose output format is KF and whose tool is not hkxcmd — exactly the tools
whose producible set lacks KF — returns an unsupported-conversion error
with an empty event trace, so no external process is spawned; jobs with
other out-of-set formats (such as the counterexample's Skyrim LE with
hkxconv) are not rejected and do spawn the external process. -/
theorem c3_kf_mismatch_rejected_without_spawn :
    (∀ t, OutputFormat.Kf ∈ ConverterTool.available_output_formats t ↔
      t = ConverterTool.HkxCmd) ∧
    (∀ (ctx : ToolCtx) (w : World) (input output : FsPath),
      ctx.output_format = OutputFormat.Kf →
      ctx.converter_tool ≠ ConverterTool.HkxCmd →
      (∃ msg, (run_conversion_tool ctx w input output).1 =
        Except.error (ConvErr.unsupportedConversion msg)) ∧
      (run_conversion_tool ctx w input output).2 = []) := by
  constructor
  · intro t
    cases t <;> decide
  · intro ctx w input output hfmt htool
    obtain ⟨t, fmt, sk, hko⟩ := ctx
    simp only at hfmt htool
    subst hfmt
    cases t with
    | HkxCmd => exact absurd rfl htool
    | Hct => exact ⟨⟨"HCT does not support KF conversion", rfl⟩, rfl⟩
    | HavokBehaviorPostProcess =>
      exact ⟨⟨"HavokBehaviorPostProcess does not support KF conversion", rfl⟩, rfl⟩
    | HkxC => exact ⟨⟨"hkxc does not support KF conversion", rfl⟩, rfl⟩
    | HkxConv => exact ⟨⟨"hkxconv does not support KF conversion", rfl⟩, rfl⟩

/-- Closed witness instantiating `c3_kf_mismatch_rejected_without_spawn`
on a concrete HCT job. -/
theorem c3_kf_mismatch_rejected_without_spawn_witness :
    (run_conversion_tool ⟨ConverterTool.Hct, OutputFormat.Kf, none, sampleHko⟩
      allOkWorld sampleIn sampleOut).2 = [] :=
  (c3_kf_mismatch_rejected_without_spawn.2
    ⟨ConverterTool.Hct, OutputFormat.Kf, none, sampleHko⟩
    allOkWorld sampleIn sampleOut rfl (by decide)).2

theorem run_spawn_common_ok_exit (ctx : ToolCtx) (w : World) (args : List Arg)
    (ev : List Event) (h : (run_spawn_common ctx w args ev).1 = Except.ok ()) :
    w.mainExit.success = true := by
  unfold run_spawn_common at h
  split_ifs at h <;> simp_all

theorem run_spawn_common_tef (ctx : ToolCtx) (w : World) (args : List Arg)
    (ev : List Event) (os : Option String) (e : String)
    (h : (run_spawn_common ctx w args ev).1 =
      Except.error (ConvErr.toolExecutionFailed os e)) :
    os = some w.mainExit.stdout ∧ e = w.mainExit.stderr ∧
      w.mainExit.success = false := by
  unfold run_spawn_common at h
  split_ifs at h <;> simp_all

theorem run_hct_rename_no_tef (w : World) (s d : FsPath) (ev : List Event)
    (os : Option String) (e : String) :
    (run_hct_rename w s d ev).1 ≠
      Except.error (ConvErr.toolExecutionFailed os e) := by
  unfold run_hct_rename
  split_ifs <;> simp

theorem run_hct_replace_no_tef (w : World) (s d : FsPath) (ev : List Event)
    (os : Option String) (e : String) :
    (run_hct_replace w s d ev).1 ≠
      Except.error (ConvErr.toolExecutionFailed os e) := by
  unfold run_hct_replace
  split_ifs <;> first
    | exact run_hct_rename_no_tef _ _ _ _ _ _
    | simp

theorem run_hct_ok_exit (ctx : ToolCtx) (w : World) (i o : FsPath)
    (h : (run_hct ctx w i o).1 = Except.ok ()) : w.hctExit.success = true := by
  by_contra hs
  rw [Bool.not_eq_true] at hs
  unfold run_hct at h
  split_ifs at h

theorem run_hct_tef (ctx : ToolCtx) (w : World) (i o : FsPath)
    (os : Option String) (e : String)
    (h : (run_hct ctx w i o).1 =
      Except.error (ConvErr.toolExecutionFailed os e)) :
    os = none ∧ e = w.hctExit.stderr ∧ w.hctExit.success = false := by
  unfold run_hct at h
  rcases hp : o.parent with _ | par <;> simp only [hp] at h <;>
    split_ifs at h <;>
    first
      | exact absurd h (run_hct_replace_no_tef _ _ _ _ _ _)
      | simp_all

theorem run_hbpp_copy_ok_exit (ctx : ToolCtx) (w : World) (i o : FsPath)
    (args0 : List Arg) (ev : List Event)
    (h : (run_hbpp_copy ctx w i o args0 ev).1 = Except.ok ()) :
    w.mainExit.success = true := by
  unfold run_hbpp_copy at h
  split_ifs at h <;>
    first
      | exact run_spawn_common_ok_exit _ _ _ _ h
      | simp_all

theorem run_hbpp_copy_tef (ctx : ToolCtx) (w : World) (i o : FsPath)
    (args0 : List Arg) (ev : List Event) (os : Option String) (e : String)
    (h : (run_hbpp_copy ctx w i o args0 ev).1 =
      Except.error (ConvErr.toolExecutionFailed os e)) :
    os = some w.mainExit.stdout ∧ e = w.mainExit.stderr ∧
      w.mainExit.success = false := by
  unfold run_hbpp_copy at h
  split_ifs at h <;>
    first
      | exact run_spawn_common_tef _ _ _ _ _ _ h
      | simp_all

theorem run_conversion_tool_ok_exit (ctx : ToolCtx) (w : World)
    (input output : FsPath)
    (h : (run_conversion_tool ctx w input output).1 = Except.ok ()) :
    (if ctx.converter_tool = ConverterTool.Hct then w.hctExit.success = true
     else w.mainExit.success = true) := by
  obtain ⟨t, fmt, sk, hko⟩ := ctx
  cases t with
  | HkxCmd =>
    simp only [run_conversion_tool] at h
    simpa using run_spawn_common_ok_exit _ _ _ _ h
  | HkxC =>
    simp only [run_conversion_tool] at h
    split_ifs at h <;> first
      | simpa using run_spawn_common_ok_exit _ _ _ _ h
      | simp_all
  | HkxConv =>
    simp only [run_conversion_tool] at h
    split_ifs at h <;> first
      | simpa using run_spawn_common_ok_exit _ _ _ _ h
      | simp_all
  | Hct =>
    simp only [run_conversion_tool] at h
    split_ifs at h <;> first
      | simpa using run_hct_ok_exit _ _ _ _ h
      | simp_all
  | HavokBehaviorPostProcess =>
    simp only [run_conversion_tool] at h
    rcases hp : (ensure_absolute_path w.cwd output).parent with _ | par <;>
      simp only [hp] at h <;>
      split_ifs at h <;>
      first
        | simpa using run_hbpp_copy_ok_exit _ _ _ _ _ _ h
        | simp_all

theorem run_conversion_tool_tef_some (ctx : ToolCtx) (w : World)
    (input output : FsPath) (s e : String)
    (h : (run_conversion_tool ctx w input output).1 =
      Except.error (ConvErr.toolExecutionFailed (some s) e)) :
    s = w.mainExit.stdout ∧ e = w.mainExit.stderr ∧
      w.mainExit.success = false := by
  obtain ⟨t, fmt, sk, hko⟩ := ctx
  cases t with
  | HkxCmd =>
    simp only [run_conversion_tool] at h
    have := run_spawn_common_tef _ _ _ _ _ _ h
    simp_all
  | HkxC =>
    simp only [run_conversion_tool] at h
    split_ifs at h <;>
      first
        | (have hres := run_spawn_common_tef _ _ _ _ _ _ h; simp_all)
        | simp_all
  | HkxConv =>
    simp only [run_conversion_tool] at h
    split_ifs at h <;>
      first
        | (have hres := run_spawn_common_tef _ _ _ _ _ _ h; simp_all)
        | simp_all
  | Hct =>
    simp only [run_conversion_tool] at h
    split_ifs at h <;>
      first
        | (have hres := run_hct_tef _ _ _ _ _ _ h; simp_all)
        | simp_all
  | HavokBehaviorPostProcess =>
    simp only [run_conversion_tool] at h
    rcases hp : (ensure_absolute_path w.cwd output).parent with _ | par <;>
      simp only [hp] at h <;>
      split_ifs at h <;>
      first
        | (have hres := run_hbpp_copy_tef _ _ _ _ _ _ _ _ h; simp_all)
        | simp_all

/-- C4: across every tool branch, a successful tool run with no file at the
final output path fails the job with `outputMissing` (the check in
`run_conversion_async`); a successful run implies the relevant external
process reported success; and the non-zero-exit failure is the distinct
`toolExecutionFailed` error carrying the captured stdout and stderr of the
common spawn site, which never surfaces as `outputMissing`. -/
theorem c4_output_missing_vs_tool_failure (ctx : ToolCtx) (w : World)
    (input output : FsPath) :
    ((run_conversion_tool ctx w input output).1 = Except.ok () →
      (w.finalOutputExists = false →
        run_job ctx w input output = Except.error ConvErr.outputMissing) ∧
      (if ctx.converter_tool = ConverterTool.Hct then w.hctExit.success = true
       else w.mainExit.success = true)) ∧
    (∀ s e, (run_conversion_tool ctx w input output).1 =
        Except.error (ConvErr.toolExecutionFailed (some s) e) →
      s = w.mainExit.stdout ∧ e = w.mainExit.stderr ∧
        w.mainExit.success = false) ∧
    (∀ os e, (run_conversion_tool ctx w input output).1 =
        Except.error (ConvErr.toolExecutionFailed os e) →
      run_job ctx w input output ≠ Except.error ConvErr.outputMissing) := by
  refine ⟨?_, ?_, ?_⟩
  · intro h
    refine ⟨?_, run_conversion_tool_ok_exit ctx w input output h⟩
    intro hfo
    simp [run_job, h, hfo]
  · intro s e h
    exact run_conversion_tool_tef_some ctx w input output s e h
  · intro os e h
    simp [run_job, h]

/-- Closed witness instantiating `c4_output_missing_vs_tool_failure` on a
concrete hkxc job whose external process succeeds but whose output file
never materializes. -/
theorem c4_output_missing_vs_tool_failure_witness :
    run_job ⟨ConverterTool.HkxC, OutputFormat.Xml, none, sampleHko⟩
      missingOutputWorld sampleIn sampleOut =
      Except.error ConvErr.outputMissing :=
  ((c4_output_missing_vs_tool_failure
    ⟨ConverterTool.HkxC, OutputFormat.Xml, none, sampleHko⟩
    missingOutputWorld sampleIn sampleOut).1 rfl).1 rfl

theorem run_spawn_common_trace (ctx : ToolCtx) (w : World) (args : List Arg)
    (ev : List Event) :
    (run_spawn_common ctx w args ev).2 =
      ev ++ [Event.spawn ctx.converter_tool args none] := by
  unfold run_spawn_common
  split_ifs <;> rfl

/-- C5: for hkxcmd with KF output the conversion direction comes from the
input file's extension — a `kf` input selects `ConvertKF`
(keyframe-to-binary, with the `-v:AMD64` version argument), any other
extension selects `exportkf` (binary-to-keyframe) — and the skeleton path
is passed as an extra positional argument, placed before the input and
output, in the binary-to-keyframe invocation. -/
theorem c5_kf_direction_from_extension (ctx : ToolCtx) (w : World)
    (input output sk : FsPath)
    (htool : ctx.converter_tool = ConverterTool.HkxCmd)
    (hfmt : ctx.output_format = OutputFormat.Kf)
    (hsk : ctx.skeleton_file = some sk) :
    ((ensure_absolute_path w.cwd input).extension.getD "" = "kf" →
      (run_conversion_tool ctx w input output).2 =
        [Event.spawn ConverterTool.HkxCmd
          [Arg.str "ConvertKF", Arg.path (ensure_absolute_path w.cwd sk),
           Arg.path (ensure_absolute_path w.cwd input),
           Arg.path (ensure_absolute_path w.cwd output),
           Arg.str "-v:AMD64"] none]) ∧
    ((ensure_absolute_path w.cwd input).extension.getD "" ≠ "kf" →
      (run_conversion_tool ctx w input output).2 =
        [Event.spawn ConverterTool.HkxCmd
          [Arg.str "exportkf", Arg.path (ensure_absolute_path w.cwd sk),
           Arg.path (ensure_absolute_path w.cwd input),
           Arg.path (ensure_absolute_path w.cwd output)] none]) := by
  obtain ⟨t, fmt, skf, hko⟩ := ctx
  simp only at htool hfmt hsk
  subst htool
  subst hfmt
  subst hsk
  constructor
  · intro hext
    simp [run_conversion_tool, run_spawn_common_trace, hext, hkxcmdVersionArg]
  · intro hext
    simp [run_conversion_tool, run_spawn_common_trace, hext, hkxcmdVersionArg]

/-- Closed witness instantiating `c5_kf_direction_from_extension` on a
concrete binary-to-keyframe job. -/
theorem c5_kf_direction_from_extension_witness :
    (run_conversion_tool
      ⟨ConverterTool.HkxCmd, OutputFormat.Kf, some sampleSkel, sampleHko⟩
      allOkWorld sampleIn sampleOut).2 =
      [Event.spawn ConverterTool.HkxCmd
        [Arg.str "exportkf",
         Arg.path (ensure_absolute_path allOkWorld.cwd sampleSkel),
         Arg.path (ensure_absolute_path allOkWorld.cwd sampleIn),
         Arg.path (ensure_absolute_path allOkWorld.cwd sampleOut)] none] :=
  (c5_kf_direction_from_extension
    ⟨ConverterTool.HkxCmd, OutputFormat.Kf, some sampleSkel, sampleHko⟩
    allOkWorld sampleIn sampleOut sampleSkel rfl rfl rfl).2 (by decide)

theorem run_hct_rename_trace_tail (w : World) (s d : FsPath) (ev : List Event) :
    ∃ t, (run_hct_rename w s d ev).2 =
      ev ++ t ++ [Event.removeTempDir w.tempDir] := by
  unfold run_hct_rename
  split_ifs
  · exact ⟨[Event.renameFile s d], by simp⟩
  · exact ⟨[Event.copyFile s d], by simp⟩
  · exact ⟨[Event.copyFile s d, Event.removeFile s], by simp⟩
  · exact ⟨[Event.copyFile s d, Event.removeFile s], by simp⟩

theorem run_hct_replace_trace_tail (w : World) (s d : FsPath) (ev : List Event) :
    ∃ t, (run_hct_replace w s d ev).2 =
      ev ++ t ++ [Event.removeTempDir w.tempDir] := by
  unfold run_hct_replace
  split_ifs
  · exact ⟨[Event.removeFile d], by simp⟩
  · obtain ⟨t, ht⟩ := run_hct_rename_trace_tail w s d (ev ++ [Event.removeFile d])
    exact ⟨Event.removeFile d :: t, by simp [ht]⟩
  · exact run_hct_rename_trace_tail w s d ev

theorem run_hct_trace_shape (ctx : ToolCtx) (w : World) (i o : FsPath)
    (h1 : w.tempDirOk = true) :
    ∃ t, (run_hct ctx w i o).2 =
      Event.createTempDir w.tempDir ::
      Event.copyFile ctx.sse_to_le_hko_path
        (w.tempDir.join (FsPath.rel1 (ctx.sse_to_le_hko_path.fileName.getD ""))) ::
      t ++ [Event.removeTempDir w.tempDir] := by
  unfold run_hct
  rw [if_neg (by simp [h1])]
  simp only [List.append_assoc, List.singleton_append, List.cons_append,
    List.nil_append]
  split_ifs
  · exact ⟨[], by simp⟩
  · exact ⟨[Event.spawn ConverterTool.Hct
      [Arg.path i, Arg.str "-s", Arg.str (ctx.sse_to_le_hko_path.fileName.getD "")]
      (some w.tempDir)], by simp⟩
  · exact ⟨[Event.spawn ConverterTool.Hct
      [Arg.path i, Arg.str "-s", Arg.str (ctx.sse_to_le_hko_path.fileName.getD "")]
      (some w.tempDir)], by simp⟩
  · exact ⟨[Event.spawn ConverterTool.Hct
      [Arg.path i, Arg.str "-s", Arg.str (ctx.sse_to_le_hko_path.fileName.getD "")]
      (some w.tempDir)], by simp⟩
  · rcases hp : o.parent with _ | par <;> simp only [hp]
    · obtain ⟨t, ht⟩ := run_hct_replace_trace_tail w
        (w.tempDir.join (FsPath.rel1 "filename.hkx")) o
        [Event.createTempDir w.tempDir,
         Event.copyFile ctx.sse_to_le_hko_path
           (w.tempDir.join (FsPath.rel1 (ctx.sse_to_le_hko_path.fileName.getD ""))),
         Event.spawn ConverterTool.Hct
           [Arg.path i, Arg.str "-s", Arg.str (ctx.sse_to_le_hko_path.fileName.getD "")]
           (some w.tempDir)]
      rw [ht]
      exact ⟨Event.spawn ConverterTool.Hct
        [Arg.path i, Arg.str "-s", Arg.str (ctx.sse_to_le_hko_path.fileName.getD "")]
        (some w.tempDir) :: t, by simp⟩
    · exact ⟨[Event.spawn ConverterTool.Hct
        [Arg.path i, Arg.str "-s", Arg.str (ctx.sse_to_le_hko_path.fileName.getD "")]
        (some w.tempDir), Event.createDirAll par], by simp⟩
  · rcases hp : o.parent with _ | par <;> simp only [hp]
    · obtain ⟨t, ht⟩ := run_hct_replace_trace_tail w
        (w.tempDir.join (FsPath.rel1 "filename.hkx")) o
        [Event.createTempDir w.tempDir,
         Event.copyFile ctx.sse_to_le_hko_path
           (w.tempDir.join (FsPath.rel1 (ctx.sse_to_le_hko_path.fileName.getD ""))),
         Event.spawn ConverterTool.Hct
           [Arg.path i, Arg.str "-s", Arg.str (ctx.sse_to_le_hko_path.fileName.getD "")]
           (some w.tempDir)]
      rw [ht]
      exact ⟨Event.spawn ConverterTool.Hct
        [Arg.path i, Arg.str "-s", Arg.str (ctx.sse_to_le_hko_path.fileName.getD "")]
        (some w.tempDir) :: t, by simp⟩
    · obtain ⟨t, ht⟩ := run_hct_replace_trace_tail w
        (w.tempDir.join (FsPath.rel1 "filename.hkx")) o
        [Event.createTempDir w.tempDir,
         Event.copyFile ctx.sse_to_le_hko_path
           (w.tempDir.join (FsPath.rel1 (ctx.sse_to_le_hko_path.fileName.getD ""))),
         Event.spawn ConverterTool.Hct
           [Arg.path i, Arg.str "-s", Arg.str (ctx.sse_to_le_hko_path.fileName.getD "")]
           (some w.tempDir), Event.createDirAll par]
      rw [ht]
      exact ⟨Event.spawn ConverterTool.Hct
        [Arg.path i, Arg.str "-s", Arg.str (ctx.sse_to_le_hko_path.fileName.getD "")]
        (some w.tempDir) :: Event.createDirAll par :: t, by simp⟩

theorem run_hct_spawn_mem (ctx : ToolCtx) (w : World) (i o : FsPath)
    (h1 : w.tempDirOk = true) (h2 : w.copyHkoOk = true) :
    Event.spawn ConverterTool.Hct
      [Arg.path i, Arg.str "-s", Arg.str (ctx.sse_to_le_hko_path.fileName.getD "")]
      (some w.tempDir) ∈ (run_hct ctx w i o).2 := by
  unfold run_hct
  rw [if_neg (by simp [h1]), if_neg (by simp [h2])]
  simp only [List.append_assoc, List.singleton_append, List.cons_append,
    List.nil_append]
  split_ifs with hc1 hc2 hc3 hc4
  · simp
  · simp
  · simp
  · rcases hp : o.parent with _ | par <;> simp only [hp]
    · obtain ⟨t, ht⟩ := run_hct_replace_trace_tail w
        (w.tempDir.join (FsPath.rel1 "filename.hkx")) o
        [Event.createTempDir w.tempDir,
           Event.copyFile ctx.sse_to_le_hko_path
             (w.tempDir.join (FsPath.rel1 (ctx.sse_to_le_hko_path.fileName.getD ""))),
           Event.spawn ConverterTool.Hct
             [Arg.path i, Arg.str "-s", Arg.str (ctx.sse_to_le_hko_path.fileName.getD "")]
             (some w.tempDir)]
      rw [ht]
      simp
    · simp
  · rcases hp : o.parent with _ | par <;> simp only [hp]
    · obtain ⟨t, ht⟩ := run_hct_replace_trace_tail w
        (w.tempDir.join (FsPath.rel1 "filename.hkx")) o
        [Event.createTempDir w.tempDir,
           Event.copyFile ctx.sse_to_le_hko_path
             (w.tempDir.join (FsPath.rel1 (ctx.sse_to_le_hko_path.fileName.getD ""))),
           Event.spawn ConverterTool.Hct
             [Arg.path i, Arg.str "-s", Arg.str (ctx.sse_to_le_hko_path.fileName.getD "")]
             (some w.tempDir)]
      rw [ht]
      simp
    · obtain ⟨t, ht⟩ := run_hct_replace_trace_tail w
        (w.tempDir.join (FsPath.rel1 "filename.hkx")) o
        [Event.createTempDir w.tempDir,
           Event.copyFile ctx.sse_to_le_hko_path
             (w.tempDir.join (FsPath.rel1 (ctx.sse_to_le_hko_path.fileName.getD ""))),
           Event.spawn ConverterTool.Hct
             [Arg.path i, Arg.str "-s", Arg.str (ctx.sse_to_le_hko_path.fileName.getD "")]
             (some w.tempDir), Event.createDirAll par]
      rw [ht]
      simp

theorem run_hct_success_rename (ctx : ToolCtx) (w : World) (i o : FsPath)
    (h1 : w.tempDirOk = true) (h2 : w.copyHkoOk = true)
    (h3 : w.hctSpawnOk = true) (h4 : w.hctExit.success = true)
    (h5 : w.hctFixedOutputExists = true) (h6 : w.hctMkdirOk = true)
    (h7 : w.removePreexistingOk = true) (h8 : w.renameOk = true) :
    (run_hct ctx w i o).1 = Except.ok () ∧
    Event.renameFile (w.tempDir.join (FsPath.rel1 "filename.hkx")) o ∈
      (run_hct ctx w i o).2 ∧
    (∀ par, o.parent = some par →
      Event.createDirAll par ∈ (run_hct ctx w i o).2) ∧
    (w.finalPreexists = true →
      Event.removeFile o ∈ (run_hct ctx w i o).2) := by
  rcases hp : o.parent with _ | par <;>
    by_cases hpre : w.finalPreexists = true <;>
    simp [run_hct, run_hct_replace, run_hct_rename, h1, h2, h3, h4, h5, h6,
      h7, h8, hp, hpre]

theorem run_hct_success_fallback (ctx : ToolCtx) (w : World) (i o : FsPath)
    (h1 : w.tempDirOk = true) (h2 : w.copyHkoOk = true)
    (h3 : w.hctSpawnOk = true) (h4 : w.hctExit.success = true)
    (h5 : w.hctFixedOutputExists = true) (h6 : w.hctMkdirOk = true)
    (h7 : w.removePreexistingOk = true) (h8 : w.renameOk = false)
    (h9 : w.copyFallbackOk = true) (h10 : w.removeTempOutOk = true) :
    (run_hct ctx w i o).1 = Except.ok () ∧
    Event.copyFile (w.tempDir.join (FsPath.rel1 "filename.hkx")) o ∈
      (run_hct ctx w i o).2 ∧
    Event.removeFile (w.tempDir.join (FsPath.rel1 "filename.hkx")) ∈
      (run_hct ctx w i o).2 := by
  rcases hp : o.parent with _ | par <;>
    by_cases hpre : w.finalPreexists = true <;>
    simp [run_hct, run_hct_replace, run_hct_rename, h1, h2, h3, h4, h5, h6,
      h7, h8, h9, h10, hp, hpre]

theorem run_conversion_tool_hct_eq (ctx : ToolCtx) (w : World)
    (input output : FsPath)
    (htool : ctx.converter_tool = ConverterTool.Hct)
    (hfmt : ctx.output_format ≠ OutputFormat.Kf) :
    run_conversion_tool ctx w input output =
      run_hct ctx w (ensure_absolute_path w.cwd input)
        (ensure_absolute_path w.cwd output) := by
  obtain ⟨t, f, s, k⟩ := ctx
  simp only at htool hfmt
  subst htool
  simp [run_conversion_tool, hfmt]

/-- C6: for every job routed to HCT (KF output is rejected earlier), the
tool runs inside the freshly created job-exclusive temporary directory
holding a private copy of the .hko asset (the trace opens with the
directory creation and the copy, and the spawn's working directory is the
temporary directory); on the successful path the engine creates the final
output's parent directory when there is one, removes a pre-existing file at
the final path, and moves the fixed-name output into place by rename, or by
copy plus delete when rename fails; and on every exit path the trace ends
by removing the temporary directory (which is never created when the
temporary-directory allocation itself fails). -/
theorem c6_hct_temp_dir_lifecycle (ctx : ToolCtx) (w : World)
    (input output : FsPath)
    (htool : ctx.converter_tool = ConverterTool.Hct)
    (hfmt : ctx.output_format ≠ OutputFormat.Kf) :
    (w.tempDirOk = false → (run_conversion_tool ctx w input output).2 = []) ∧
    (w.tempDirOk = true →
      ∃ mid, (run_conversion_tool ctx w input output).2 =
        Event.createTempDir w.tempDir ::
        Event.copyFile ctx.sse_to_le_hko_path
          (w.tempDir.join (FsPath.rel1 (ctx.sse_to_le_hko_path.fileName.getD ""))) ::
        mid ++ [Event.removeTempDir w.tempDir]) ∧
    (w.tempDirOk = true → w.copyHkoOk = true →
      Event.spawn ConverterTool.Hct
        [Arg.path (ensure_absolute_path w.cwd input), Arg.str "-s",
         Arg.str (ctx.sse_to_le_hko_path.fileName.getD "")]
        (some w.tempDir) ∈ (run_conversion_tool ctx w input output).2) ∧
    (w.tempDirOk = true → w.copyHkoOk = true → w.hctSpawnOk = true →
     w.hctExit.success = true → w.hctFixedOutputExists = true →
     w.hctMkdirOk = true → w.removePreexistingOk = true → w.renameOk = true →
      (run_conversion_tool ctx w input output).1 = Except.ok () ∧
      Event.renameFile (w.tempDir.join (FsPath.rel1 "filename.hkx"))
        (ensure_absolute_path w.cwd output) ∈
        (run_conversion_tool ctx w input output).2 ∧
      (∀ par, (ensure_absolute_path w.cwd output).parent = some par →
        Event.createDirAll par ∈ (run_conversion_tool ctx w input output).2) ∧
      (w.finalPreexists = true →
        Event.removeFile (ensure_absolute_path w.cwd output) ∈
          (run_conversion_tool ctx w input output).2)) ∧
    (w.tempDirOk = true → w.copyHkoOk = true → w.hctSpawnOk = true →
     w.hctExit.success = true → w.hctFixedOutputExists = true →
     w.hctMkdirOk = true → w.removePreexistingOk = true → w.renameOk = false →
     w.copyFallbackOk = true → w.removeTempOutOk = true →
      (run_conversion_tool ctx w input output).1 = Except.ok () ∧
      Event.copyFile (w.tempDir.join (FsPath.rel1 "filename.hkx"))
        (ensure_absolute_path w.cwd output) ∈
        (run_conversion_tool ctx w input output).2 ∧
      Event.removeFile (w.tempDir.join (FsPath.rel1 "filename.hkx")) ∈
        (run_conversion_tool ctx w input output).2) := by
  have heq := run_conversion_tool_hct_eq ctx w input output htool hfmt
  rw [heq]
  refine ⟨?_, ?_, ?_, ?_, ?_⟩
  · intro h1
    simp [run_hct, h1]
  · intro h1
    exact run_hct_trace_shape ctx w _ _ h1
  · intro h1 h2
    exact run_hct_spawn_mem ctx w _ _ h1 h2
  · intro h1 h2 h3 h4 h5 h6 h7 h8
    exact run_hct_success_rename ctx w _ _ h1 h2 h3 h4 h5 h6 h7 h8
  · intro h1 h2 h3 h4 h5 h6 h7 h8 h9 h10
    exact run_hct_success_fallback ctx w _ _ h1 h2 h3 h4 h5 h6 h7 h8 h9 h10

/-- Closed witness instantiating `c6_hct_temp_dir_lifecycle` on a concrete
successful HCT job. -/
theorem c6_hct_temp_dir_lifecycle_witness :
    (run_conversion_tool ⟨ConverterTool.Hct, OutputFormat.SkyrimLE, none, sampleHko⟩
      allOkWorld sampleIn sampleOut).1 = Except.ok () :=
  ((c6_hct_temp_dir_lifecycle
    ⟨ConverterTool.Hct, OutputFormat.SkyrimLE, none, sampleHko⟩
    allOkWorld sampleIn sampleOut rfl (by decide)).2.2.2.1
    rfl rfl rfl rfl rfl rfl rfl rfl).1

/-- C7: a HavokBehaviorPostProcess job (non-KF format, hkx input) whose
resolved absolute input path equals its resolved absolute output path fails
with `samePath`, with an empty event trace — so before any copy, any
directory creation, and any process spawn. -/
theorem c7_same_path_before_copy_and_spawn (ctx : ToolCtx) (w : World)
    (input output : FsPath)
    (htool : ctx.converter_tool = ConverterTool.HavokBehaviorPostProcess)
    (hfmt : ctx.output_format ≠ OutputFormat.Kf)
    (hext : (ensure_absolute_path w.cwd input).extension = some "hkx")
    (heq : ensure_absolute_path w.cwd input = ensure_absolute_path w.cwd output) :
    run_conversion_tool ctx w input output = (Except.error ConvErr.samePath, []) := by
  obtain ⟨t, f, s, k⟩ := ctx
  simp only at htool hfmt
  subst htool
  rw [heq] at hext
  simp [run_conversion_tool, hfmt, hext, heq]

/-- Closed witness instantiating `c7_same_path_before_copy_and_spawn` with
the same concrete path as input and output. -/
theorem c7_same_path_before_copy_and_spawn_witness :
    run_conversion_tool
      ⟨ConverterTool.HavokBehaviorPostProcess, OutputFormat.SkyrimSE, none, sampleHko⟩
      allOkWorld sampleIn sampleIn = (Except.error ConvErr.samePath, []) :=
  c7_same_path_before_copy_and_spawn
    ⟨ConverterTool.HavokBehaviorPostProcess, OutputFormat.SkyrimSE, none, sampleHko⟩
    allOkWorld sampleIn sampleIn rfl (by decide) rfl rfl

/-- C8: a batch with an empty input list, or no output root, or a
skeleton-requiring format (exactly the KF format) and no skeleton, is
rejected by `start_conversion` with a single validation error message, and
hands zero jobs to the conversion runner — so no conversion task is
dispatched and no external process spawned. -/
theorem c8_batch_validation_rejects (inputs : List FsPath)
    (folder : Option FsPath) (fmt : OutputFormat) (sk : Option FsPath)
    (h : inputs = [] ∨ folder = none ∨
      (fmt.requires_skeleton = true ∧ sk = none)) :
    (∃ msg, start_conversion inputs folder fmt sk = StartOutcome.rejected msg) ∧
    (start_conversion inputs folder fmt sk).dispatchedJobs = [] ∧
    (∀ f, f.requires_skeleton = true ↔ f = OutputFormat.Kf) := by
  have hiff : ∀ f : OutputFormat, f.requires_skeleton = true ↔ f = OutputFormat.Kf := by
    intro f
    cases f <;> simp [OutputFormat.requires_skeleton]
  have hrej : ∃ msg, start_conversion inputs folder fmt sk =
      StartOutcome.rejected msg := by
    by_cases he : inputs = []
    · exact ⟨"No input files selected", by simp [start_conversion, he]⟩
    · by_cases hf : folder = none
      · exact ⟨"No output folder selected", by simp [start_conversion, he, hf]⟩
      · rcases h with h | h | h
        · exact absurd h he
        · exact absurd h hf
        · exact ⟨"Skeleton file is required for KF conversion",
            by simp [start_conversion, he, hf, h.1, h.2]⟩
  obtain ⟨msg, hmsg⟩ := hrej
  exact ⟨⟨msg, hmsg⟩, by simp [hmsg, StartOutcome.dispatchedJobs], hiff⟩

/-- Closed witness instantiating `c8_batch_validation_rejects` on an empty
batch. -/
theorem c8_batch_validation_rejects_witness :
    (start_conversion [] none OutputFormat.Xml none).dispatchedJobs = [] :=
  (c8_batch_validation_rejects [] none OutputFormat.Xml none (Or.inl rfl)).2.1

theorem orch_dispatch_all (cfg : OrchCfg) (w : OrchWorld) :
    ∀ (inputs : List FsPath) (i : Nat),
    (∀ j, i ≤ j → j < i + inputs.length → w.cancelAt ≠ some j) →
    w.mkdirFailAt = none →
    (∀ p ∈ inputs, (get_output_path_static p cfg.output_folder cfg.output_suffix
        cfg.output_format cfg.custom_extension cfg.base_folder).isSome = true) →
    orch_dispatch cfg w inputs i = (inputs, Phase1End.ran) := by
  intro inputs
  induction inputs with
  | nil =>
    intro i _ _ _
    rfl
  | cons p ps ih =>
    intro i hcan hmk hpaths
    have hc : w.cancelAt ≠ some i := hcan i le_rfl (by simp)
    have hp := hpaths p (by simp)
    rcases ho : get_output_path_static p cfg.output_folder cfg.output_suffix
        cfg.output_format cfg.custom_extension cfg.base_folder with _ | op
    · rw [ho] at hp
      simp at hp
    · have hrest := ih (i + 1)
        (fun j hj1 hj2 => hcan j (by omega) (by simp at hj2 ⊢; omega))
        hmk (fun q hq => hpaths q (by simp [hq]))
      simp [orch_dispatch, if_neg hc, ho, hmk, hrest]

theorem orch_tally_cancel (w : OrchWorld) :
    ∀ (rs : List Bool) (c0 s f : Nat),
    (∃ j, j < rs.length ∧ w.cancelAt = some (c0 + j)) →
    orch_tally w rs c0 s f = none := by
  intro rs
  induction rs with
  | nil =>
    intro c0 s f hj
    obtain ⟨j, hj, _⟩ := hj
    simp at hj
  | cons r rest ih =>
    intro c0 s f hj
    obtain ⟨j, hj, hc⟩ := hj
    by_cases h0 : w.cancelAt = some c0
    · simp [orch_tally, h0]
    · rw [orch_tally, if_neg h0]
      rcases j with _ | j
      · rw [Nat.add_zero] at hc
        exact absurd hc h0
      · refine ih (c0 + 1) _ _ ⟨j, ?_, ?_⟩
        · simp at hj
          omega
        · rw [hc]
          congr 1
          omega

/-- C9: with a non-empty batch, a cancellation observed at the very first
check (before the first job is dispatched) makes the orchestrator dispatch
zero tasks and emit exactly one cancelled event; a cancellation observed
after the dispatch loop completed (all jobs dispatched and awaited, none
killed) leaves every input dispatched but suppresses the final summary,
emitting the result-loop cancelled event instead. -/
theorem c9_cooperative_cancellation (cfg : OrchCfg) (w : OrchWorld)
    (inputs : List FsPath) (hne : inputs ≠ []) :
    (w.cancelAt = some 0 →
      run_conversion_async cfg w inputs =
        ⟨[], [OrchEvent.cancelledEvent true], OrchOutcome.finished⟩) ∧
    (∀ c, w.cancelAt = some c → inputs.length ≤ c →
      c < inputs.length + inputs.length →
      w.mkdirFailAt = none →
      (∀ p ∈ inputs, (get_output_path_static p cfg.output_folder
        cfg.output_suffix cfg.output_format cfg.custom_extension
        cfg.base_folder).isSome = true) →
      w.jobOutcomes.length = inputs.length →
      (run_conversion_async cfg w inputs).dispatched = inputs ∧
      (run_conversion_async cfg w inputs).events =
        [OrchEvent.cancelledEvent false]) := by
  constructor
  · intro h0
    rcases inputs with _ | ⟨p, ps⟩
    · exact absurd rfl hne
    · simp [run_conversion_async, orch_dispatch, h0]
  · intro c hc hge hlt hmf hpaths hlen
    have hdisp := orch_dispatch_all cfg w inputs 0
      (fun j hj1 hj2 => by
        rw [hc]
        intro heq
        have := Option.some.inj heq
        omega)
      hmf hpaths
    have htal : orch_tally w (w.jobOutcomes.take inputs.length)
        inputs.length 0 0 = none := by
      refine orch_tally_cancel w _ inputs.length 0 0 ⟨c - inputs.length, ?_, ?_⟩
      · simp [hlen]
        omega
      · rw [hc]
        congr 1
        omega
    constructor <;> simp [run_conversion_async, hdisp, htal]

/-- Closed witness instantiating `c9_cooperative_cancellation`'s first part
on a one-file batch cancelled before dispatch. -/
theorem c9_cooperative_cancellation_witness :
    run_conversion_async
      ⟨⟨true, ["out"]⟩, "", OutputFormat.Xml, none, none⟩
      ⟨some 0, none, [true]⟩ [sampleIn] =
      ⟨[], [OrchEvent.cancelledEvent true], OrchOutcome.finished⟩ :=
  (c9_cooperative_cancellation
    ⟨⟨true, ["out"]⟩, "", OutputFormat.Xml, none, none⟩
    ⟨some 0, none, [true]⟩ [sampleIn] (by simp)).1 rfl

theorem push_nodup {l : List FsPath} {p : FsPath} (h : l.Nodup)
    (hp : p ∉ l) : (l ++ [p]).Nodup := by
  rw [List.nodup_append]
  refine ⟨h, List.nodup_singleton p, fun a ha hb => ?_⟩
  simp at hb
  subst hb
  exact hp ha

theorem add_file_nodup (fs : List FsPath) (st : AppFiles) (p : FsPath)
    (h : st.input_paths.Nodup) : ((add_file fs st p).1).input_paths.Nodup := by
  unfold add_file
  split_ifs with hcond
  · exact push_nodup h hcond.2
  · exact h

theorem add_entries_nodup (fs : List FsPath) :
    ∀ (entries : List FsPath) (st : AppFiles), st.input_paths.Nodup →
    (add_entries fs st entries).input_paths.Nodup := by
  intro entries
  induction entries with
  | nil =>
    intro st h
    exact h
  | cons e es ih =>
    intro st h
    refine ih _ ?_
    dsimp only
    split_ifs with hcond
    · exact push_nodup h hcond.2
    · exact h

theorem drop_dir_fold_nodup (fs : List FsPath) :
    ∀ (entries : List FsPath) (st : AppFiles), st.input_paths.Nodup →
    (entries.foldl (fun s2 e => if e ∈ fs then (add_file fs s2 e).1 else s2)
      st).input_paths.Nodup := by
  intro entries
  induction entries with
  | nil =>
    intro st h
    exact h
  | cons e es ih =>
    intro st h
    rw [List.foldl_cons]
    refine ih _ ?_
    split_ifs
    · exact add_file_nodup fs st e h
    · exact h

theorem handle_dropped_files_nodup (fs : List FsPath) :
    ∀ (items : List DroppedItem) (st : AppFiles), st.input_paths.Nodup →
    (handle_dropped_files fs st items).input_paths.Nodup := by
  intro items
  induction items with
  | nil =>
    intro st h
    exact h
  | cons it its ih =>
    intro st h
    refine ih _ ?_
    cases it with
    | fileItem p => exact add_file_nodup fs st p h
    | dirItem d entries => exact drop_dir_fold_nodup fs entries _ h
    | otherItem p => exact h

/-- C10: every file-adding operation — adding a single file, adding a
folder's listing (the shared loop body of the non-recursive and recursive
folder adders), and handling dropped files and folders — preserves the
invariant that the input-path list has no duplicates: a path already
present is skipped rather than pushed again. -/
theorem c10_no_duplicate_inputs (fs : List FsPath) (st : AppFiles)
    (h : st.input_paths.Nodup) :
    (∀ p, ((add_file fs st p).1).input_paths.Nodup) ∧
    (∀ entries, (add_entries fs st entries).input_paths.Nodup) ∧
    (∀ folder entries,
      (add_files_from_folder fs st folder entries).input_paths.Nodup) ∧
    (∀ items, (handle_dropped_files fs st items).input_paths.Nodup) :=
  ⟨fun p => add_file_nodup fs st p h,
   fun entries => add_entries_nodup fs entries st h,
   fun folder entries => add_entries_nodup fs entries _ h,
   fun items => handle_dropped_files_nodup fs items st h⟩

/-- Closed witness instantiating `c10_no_duplicate_inputs` on a concrete
state and file. -/
theorem c10_no_duplicate_inputs_witness :
    ((add_file [sampleIn]
      ⟨[], none, InputFileExtension.All, ConverterTool.HkxCmd⟩
      sampleIn).1).input_paths.Nodup :=
  (c10_no_duplicate_inputs [sampleIn]
    ⟨[], none, InputFileExtension.All, ConverterTool.HkxCmd⟩
    List.nodup_nil).1 sampleIn
